import Mathlib

/-!
Verification of `peer/peer.go`: a UDP broadcast/receive example program.

The program generates a random identity `peer-<n>`, resolves the broadcast
address `255.255.255.255:2002`, launches a background goroutine that dials
that address and then loops (sleep one second, write the identity bytes),
while the main thread resolves the listen address `:2002`, binds a UDP
socket, and loops reading datagrams into a 1024-byte buffer, logging every
payload and sender.

We embed the program as a labelled transition system: a `PState` carries the
program counter of the main thread and of the goroutine, the resolved
addresses, the listener buffer, an event log, and the exit status.  External
outcomes (resolution failures, dial/bind failures, arriving datagrams, read
errors) are chosen by the environment, which is why `Step` is a relation.
-/

set_option maxRecDepth 4000

namespace Peer

/-- A UDP address as used by this program: a host part and a port.
Models `net.UDPAddr` to the extent the program observes it. -/
structure UDPAddr where
  host : String
  port : Nat
deriving DecidableEq

/-- Program counter of the main thread of `main` in `peer.go`:
resolve broadcast address, resolve listen address, bind, read loop. -/
inductive MainPC
  | resolveBcast
  | resolveListen
  | bindListen
  | readLoop
deriving DecidableEq

/-- Program counter of the background goroutine: not yet launched,
dialing the broadcast address, at the sleep at the top of the loop,
or about to write. -/
inductive GoPC
  | notStarted
  | dialing
  | sleeping
  | writing
deriving DecidableEq

/-- Observable events of a run: log lines, socket operations, and the
fatal-exit log lines from the four `log.Fatalf` call sites. -/
inductive Event
  | logIAm (name : String)
  | resolveBcastOkEv (a : UDPAddr)
  | fatalResolveBcast (msg : String)
  | dialAttempt (target : UDPAddr)
  | fatalDial (msg : String)
  | sleepSecond
  | logBroadcasting
  | writeAttempt (payload : List Nat)
  | logWriteError (msg : String)
  | resolveListenOkEv (a : UDPAddr)
  | fatalResolveListen (msg : String)
  | bindAttempt (a : UDPAddr)
  | fatalBind (msg : String)
  | readAttempt
  | logReceived (payload : List Nat) (sender : UDPAddr)
  | logReadError (msg : String)
  | closeListener
deriving DecidableEq

/-- Socket operations, in the sense of the spec sentence about
"any socket operation (dial, bind, write, or read)". -/
def Event.isSocketOp : Event → Bool
  | .dialAttempt _ => true
  | .bindAttempt _ => true
  | .writeAttempt _ => true
  | .readAttempt => true
  | _ => false

def Event.isIAm : Event → Bool
  | .logIAm _ => true
  | _ => false

def Event.isSleepEv : Event → Bool
  | .sleepSecond => true
  | _ => false

def Event.isWriteEv : Event → Bool
  | .writeAttempt _ => true
  | _ => false

def Event.isReadEv : Event → Bool
  | .readAttempt => true
  | _ => false

def Event.isRecvEv : Event → Bool
  | .logReceived _ _ => true
  | _ => false

/-- The constant `commonPort = 2002` in `peer.go`. -/
def commonPort : Nat := 2002

/-- The string passed to `net.ResolveUDPAddr` for the broadcast address:
`"255.255.255.255:" + strconv.Itoa(commonPort)`. -/
def bcastAddrString : String := "255.255.255.255:" ++ Nat.repr commonPort

/-- The string passed to `net.ResolveUDPAddr` for the listen address:
`":" + strconv.Itoa(commonPort)`. -/
def listenAddrString : String := ":" ++ Nat.repr commonPort

/-- Split a character list at its last colon, returning the parts before
and after it. -/
def splitLastColon : List Char → Option (List Char × List Char)
  | [] => none
  | c :: rest =>
    match splitLastColon rest with
    | some (h, p) => some (c :: h, p)
    | none => if c = ':' then some ([], rest) else none

/-- Parse a nonempty list of decimal digits as a natural number. -/
def parseDecimal (cs : List Char) : Option Nat :=
  if cs ≠ [] ∧ cs.all Char.isDigit then
    some (cs.foldl (fun acc c => acc * 10 + (c.toNat - 48)) 0)
  else none

/-- Models `net.ResolveUDPAddr` on literal `host:port` strings as this
program uses it: split at the last colon, parse the port as decimal.  An
empty host denotes the wildcard (all interfaces) address. -/
def resolveUDPAddr (s : String) : Option UDPAddr :=
  match splitLastColon s.data with
  | none => none
  | some (h, p) =>
    match parseDecimal p with
    | none => none
    | some n => if n < 65536 then some ⟨⟨h⟩, n⟩ else none

/-- The peer identity built at startup:
`"peer-" + strconv.Itoa(rand.Int())` where `rand.Int()` is non-negative,
so the random value is modelled as a `Nat`. -/
def mkName (r : Nat) : String := "peer-" ++ Nat.repr r

/-- The bytes of a string, as Go's `[]byte(s)` conversion (UTF-8). -/
def strBytes (s : String) : List Nat :=
  s.toUTF8.data.toList.map (fun b => b.toNat)

/-- The broadcast address the program resolves. -/
def bcastA : UDPAddr := ⟨"255.255.255.255", 2002⟩

/-- The listen address the program resolves (wildcard host). -/
def listenA : UDPAddr := ⟨"", 2002⟩

/-- The whole process state: the identity string, both program counters,
the resolved addresses, the listener's receive buffer, the event log in
chronological order, and the exit status (`some code` once the process has
terminated). -/
structure PState where
  name : String
  main : MainPC
  goro : GoPC
  bcastAddr : Option UDPAddr
  listenAddr : Option UDPAddr
  buf : List Nat
  log : List Event
  exited : Option Nat
deriving DecidableEq

/-- State after `main` starts: the identity has been generated from the
seeded random source and logged; nothing else has happened. -/
def initState (r : Nat) : PState :=
  { name := mkName r
    main := .resolveBcast
    goro := .notStarted
    bcastAddr := none
    listenAddr := none
    buf := []
    log := [.logIAm (mkName r)]
    exited := none }

/-- Transition: `net.ResolveUDPAddr` for the broadcast address fails:
`log.Fatalf` exits the process with status 1. -/
def resolveBcastFailStep (s : PState) (msg : String) : PState :=
  { s with exited := some 1, log := s.log ++ [.fatalResolveBcast msg] }

/-- Transition: `net.ResolveUDPAddr` for the broadcast address succeeds; the
`go func()` goroutine is launched immediately afterwards and starts at its
dial. -/
def resolveBcastOkStep (s : PState) (a : UDPAddr) : PState :=
  { s with main := .resolveListen, goro := .dialing, bcastAddr := some a
           log := s.log ++ [.resolveBcastOkEv a] }

/-- Transition: `net.ResolveUDPAddr` for the listen address fails: `log.Fatalf`. -/
def resolveListenFailStep (s : PState) (msg : String) : PState :=
  { s with exited := some 1, log := s.log ++ [.fatalResolveListen msg] }

/-- Transition: `net.ResolveUDPAddr` for the listen address succeeds. -/
def resolveListenOkStep (s : PState) (a : UDPAddr) : PState :=
  { s with main := .bindListen, listenAddr := some a
           log := s.log ++ [.resolveListenOkEv a] }

/-- Transition: `net.ListenUDP` fails: the bind was attempted, then `log.Fatalf`. -/
def bindFailStep (s : PState) (a : UDPAddr) (msg : String) : PState :=
  { s with exited := some 1, log := s.log ++ [.bindAttempt a, .fatalBind msg] }

/-- Transition: `net.ListenUDP` succeeds; `buf := make([]byte, 1024)` is allocated and
the read loop begins. -/
def bindOkStep (s : PState) (a : UDPAddr) : PState :=
  { s with main := .readLoop, buf := List.replicate 1024 0
           log := s.log ++ [.bindAttempt a] }

/-- One iteration of the read loop: `conn.ReadFromUDP(buf)` copies the
first `n := min data.length 1024` bytes of the arriving datagram into the
buffer (the rest of the buffer keeps its old contents), then
`log.Printf("Received '%s' from %s", string(buf[0:n]), addr)` runs
unconditionally, and only then is a read error logged, after which the
loop continues. -/
def readStep (s : PState) (data : List Nat) (sender : UDPAddr)
    (err : Option String) : PState :=
  let n := min data.length 1024
  let buf2 := data.take n ++ s.buf.drop n
  { s with buf := buf2
           log := s.log ++ [.readAttempt, .logReceived (buf2.take n) sender] ++
             (match err with | none => [] | some m => [.logReadError m]) }

/-- Transition: `net.DialUDP` in the goroutine fails: the dial was attempted, then
`log.Fatalf` exits the whole process with status 1. -/
def dialFailStep (s : PState) (a : UDPAddr) (msg : String) : PState :=
  { s with exited := some 1, log := s.log ++ [.dialAttempt a, .fatalDial msg] }

/-- Transition: `net.DialUDP` succeeds; the goroutine enters its loop at the sleep. -/
def dialOkStep (s : PState) (a : UDPAddr) : PState :=
  { s with goro := .sleeping, log := s.log ++ [.dialAttempt a] }

/-- Transition: `time.Sleep(time.Second)` then `log.Printf("Broadcasting..")`. -/
def sleepStep (s : PState) : PState :=
  { s with goro := .writing, log := s.log ++ [.sleepSecond, .logBroadcasting] }

/-- Transition: `conn.Write([]byte(name))` succeeds; back to the top of the loop. -/
def writeOkStep (s : PState) : PState :=
  { s with goro := .sleeping, log := s.log ++ [.writeAttempt (strBytes s.name)] }

/-- Transition: `conn.Write([]byte(name))` fails; the error is logged and the loop
continues at the top. -/
def writeFailStep (s : PState) (msg : String) : PState :=
  { s with goro := .sleeping
           log := s.log ++ [.writeAttempt (strBytes s.name), .logWriteError msg] }

/-- One interleaved step of the process: either the main thread or the
goroutine advances.  Fallible external calls have a success and a failure
transition, the outcome being chosen by the environment.  A terminated
process (`exited = some _`) takes no step. -/
inductive Step : PState → PState → Prop
  | resolveBcastFail (s : PState) (msg : String)
      (hrun : s.exited = none) (hpc : s.main = .resolveBcast) :
      Step s (resolveBcastFailStep s msg)
  | resolveBcastOk (s : PState) (a : UDPAddr)
      (hrun : s.exited = none) (hpc : s.main = .resolveBcast)
      (hres : resolveUDPAddr bcastAddrString = some a) :
      Step s (resolveBcastOkStep s a)
  | resolveListenFail (s : PState) (msg : String)
      (hrun : s.exited = none) (hpc : s.main = .resolveListen) :
      Step s (resolveListenFailStep s msg)
  | resolveListenOk (s : PState) (a : UDPAddr)
      (hrun : s.exited = none) (hpc : s.main = .resolveListen)
      (hres : resolveUDPAddr listenAddrString = some a) :
      Step s (resolveListenOkStep s a)
  | bindFail (s : PState) (a : UDPAddr) (msg : String)
      (hrun : s.exited = none) (hpc : s.main = .bindListen)
      (haddr : s.listenAddr = some a) :
      Step s (bindFailStep s a msg)
  | bindOk (s : PState) (a : UDPAddr)
      (hrun : s.exited = none) (hpc : s.main = .bindListen)
      (haddr : s.listenAddr = some a) :
      Step s (bindOkStep s a)
  | readDatagram (s : PState) (data : List Nat) (sender : UDPAddr)
      (err : Option String)
      (hrun : s.exited = none) (hpc : s.main = .readLoop) :
      Step s (readStep s data sender err)
  | dialFail (s : PState) (a : UDPAddr) (msg : String)
      (hrun : s.exited = none) (hgo : s.goro = .dialing)
      (haddr : s.bcastAddr = some a) :
      Step s (dialFailStep s a msg)
  | dialOk (s : PState) (a : UDPAddr)
      (hrun : s.exited = none) (hgo : s.goro = .dialing)
      (haddr : s.bcastAddr = some a) :
      Step s (dialOkStep s a)
  | sleepTick (s : PState)
      (hrun : s.exited = none) (hgo : s.goro = .sleeping) :
      Step s (sleepStep s)
  | writeOk (s : PState)
      (hrun : s.exited = none) (hgo : s.goro = .writing) :
      Step s (writeOkStep s)
  | writeFail (s : PState) (msg : String)
      (hrun : s.exited = none) (hgo : s.goro = .writing) :
      Step s (writeFailStep s msg)

/-- Reflexive-transitive closure of `Step`: a finite execution. -/
inductive Steps : PState → PState → Prop
  | refl (s : PState) : Steps s s
  | tail {s t u : PState} : Steps s t → Step t u → Steps s u

/-- Startup has fully succeeded: both resolutions, the dial and the bind
completed without error, the main thread is in its read loop and the
goroutine in its sleep/write loop. -/
def SteadyState (s : PState) : Prop :=
  s.main = .readLoop ∧ (s.goro = .sleeping ∨ s.goro = .writing) ∧
    s.exited = none

/-- Checks the shape `peer-<non-negative decimal integer>` of an identity
string. -/
def isPeerName (s : String) : Bool :=
  match s.data with
  | 'p' :: 'e' :: 'e' :: 'r' :: '-' :: rest =>
    !rest.isEmpty && rest.all Char.isDigit
  | _ => false

/-- Start of a concrete execution used below: the process with random
value 0. -/
def w0 : PState := initState 0

/-- After the broadcast address resolved and the goroutine was launched. -/
def w1 : PState := resolveBcastOkStep w0 bcastA

/-- After the goroutine's dial succeeded. -/
def w2 : PState := dialOkStep w1 bcastA

/-- After the listen address resolved. -/
def w3 : PState := resolveListenOkStep w2 listenA

/-- After the bind succeeded: startup is fully complete. -/
def w4 : PState := bindOkStep w3 listenA

/-- After one sleep of the broadcaster loop. -/
def w5 : PState := sleepStep w4

/-- After the first successful broadcast write. -/
def w6 : PState := writeOkStep w5

/-- An execution in which the listen-address resolution fails while the
already-launched goroutine has dialed: the interleaving the program allows
because `go func()` runs before the listen address is resolved. -/
def cx : PState := resolveListenFailStep w2 "lookup failed"

theorem step_exited_src {s t : PState} (h : Step s t) : s.exited = none := by
  cases h <;> assumption

theorem no_step_of_exited {s : PState} {c : Nat} (hx : s.exited = some c) :
    ∀ t, ¬ Step s t := by
  intro t h
  rw [step_exited_src h] at hx
  exact Option.noConfusion hx

theorem step_name {s t : PState} (h : Step s t) : t.name = s.name := by
  cases h <;> rfl

theorem steps_name {s t : PState} (h : Steps s t) : t.name = s.name := by
  induction h with
  | refl => rfl
  | tail _ hst ih => exact (step_name hst).trans ih

theorem step_iam {s t : PState} (h : Step s t) :
    t.log.countP Event.isIAm = s.log.countP Event.isIAm := by
  cases h with
  | readDatagram data sender err hrun hpc =>
    cases err <;>
      simp [readStep, List.countP_append, List.countP_cons, Event.isIAm]
  | _ =>
    simp [resolveBcastFailStep, resolveBcastOkStep, resolveListenFailStep,
      resolveListenOkStep, bindFailStep, bindOkStep, dialFailStep, dialOkStep,
      sleepStep, writeOkStep, writeFailStep,
      List.countP_append, List.countP_cons, Event.isIAm]

theorem steps_iam {s t : PState} (h : Steps s t) :
    t.log.countP Event.isIAm = s.log.countP Event.isIAm := by
  induction h with
  | refl => rfl
  | tail _ hst ih => exact (step_iam hst).trans ih

theorem step_noclose {s t : PState} (h : Step s t)
    (hs : Event.closeListener ∉ s.log) : Event.closeListener ∉ t.log := by
  cases h with
  | readDatagram data sender err hrun hpc =>
    cases err <;> simp_all [readStep, List.mem_append]
  | _ =>
    simp_all [resolveBcastFailStep, resolveBcastOkStep, resolveListenFailStep,
      resolveListenOkStep, bindFailStep, bindOkStep, dialFailStep, dialOkStep,
      sleepStep, writeOkStep, writeFailStep, List.mem_append]

theorem steps_noclose {r : Nat} {t : PState}
    (h : Steps (initState r) t) : Event.closeListener ∉ t.log := by
  induction h with
  | refl => simp [initState]
  | tail _ hst ih => exact step_noclose hst ih

theorem steady_step {s t : PState} (hs : SteadyState s) (h : Step s t) :
    SteadyState t := by
  obtain ⟨hm, hg, hx⟩ := hs
  cases h <;>
    simp_all [SteadyState, resolveBcastFailStep, resolveBcastOkStep,
      resolveListenFailStep, resolveListenOkStep, bindFailStep, bindOkStep,
      readStep, dialFailStep, dialOkStep, sleepStep, writeOkStep, writeFailStep]

theorem steady_steps {s t : PState} (hs : SteadyState s) (h : Steps s t) :
    SteadyState t := by
  induction h with
  | refl => exact hs
  | tail _ hst ih => exact steady_step ih hst

theorem resolve_bcast_eq : resolveUDPAddr bcastAddrString = some bcastA := by
  decide

theorem resolve_listen_eq : resolveUDPAddr listenAddrString = some listenA := by
  decide

theorem digitChar_isDigit :
    ∀ m : Nat, m < 10 → (Nat.digitChar m).isDigit = true := by decide

theorem toDigitsCore_digits :
    ∀ (fuel n : Nat) (acc : List Char),
      (∀ c ∈ acc, c.isDigit = true) →
      ∀ c ∈ Nat.toDigitsCore 10 fuel n acc, c.isDigit = true := by
  intro fuel
  induction fuel with
  | zero => intro n acc hacc c hc; simpa [Nat.toDigitsCore] using hacc c hc
  | succ f ih =>
    intro n acc hacc c hc
    simp only [Nat.toDigitsCore] at hc
    by_cases h10 : n / 10 = 0
    · rw [if_pos h10] at hc
      rcases List.mem_cons.mp hc with h | h
      · subst h; exact digitChar_isDigit _ (Nat.mod_lt _ (by norm_num))
      · exact hacc c h
    · rw [if_neg h10] at hc
      refine ih (n / 10) _ ?_ c hc
      intro c' hc'
      rcases List.mem_cons.mp hc' with h | h
      · subst h; exact digitChar_isDigit _ (Nat.mod_lt _ (by norm_num))
      · exact hacc c' h

theorem toDigitsCore_len_ge :
    ∀ (fuel n : Nat) (acc : List Char),
      acc.length ≤ (Nat.toDigitsCore 10 fuel n acc).length := by
  intro fuel
  induction fuel with
  | zero => intro n acc; simp [Nat.toDigitsCore]
  | succ f ih =>
    intro n acc
    simp only [Nat.toDigitsCore]
    by_cases h10 : n / 10 = 0
    · rw [if_pos h10]; simp
    · rw [if_neg h10]
      calc acc.length ≤ (Nat.digitChar (n % 10) :: acc).length := by simp
        _ ≤ _ := ih (n / 10) _

theorem repr_data_eq (r : Nat) :
    (Nat.repr r).data = Nat.toDigitsCore 10 (r + 1) r [] := rfl

theorem repr_digits (r : Nat) : ∀ c ∈ (Nat.repr r).data, c.isDigit = true := by
  intro c hc
  rw [repr_data_eq] at hc
  exact toDigitsCore_digits (r + 1) r [] (by simp) c hc

theorem repr_ne_nil (r : Nat) : (Nat.repr r).data ≠ [] := by
  rw [repr_data_eq]
  simp only [Nat.toDigitsCore]
  by_cases h10 : r / 10 = 0
  · rw [if_pos h10]; simp
  · rw [if_neg h10]
    intro hnil
    have hlen := toDigitsCore_len_ge r (r / 10) [Nat.digitChar (r % 10)]
    rw [hnil] at hlen
    simp at hlen

theorem isPeerName_mkName (r : Nat) : isPeerName (mkName r) = true := by
  have heq : isPeerName (mkName r)
      = (!(Nat.repr r).data.isEmpty && (Nat.repr r).data.all Char.isDigit) :=
    rfl
  rw [heq, Bool.and_eq_true]
  constructor
  · cases hd : (Nat.repr r).data with
    | nil => exact absurd hd (repr_ne_nil r)
    | cons c cs => simp
  · rw [List.all_eq_true]
    exact repr_digits r

theorem step_log_grow {s t : PState} (h : Step s t) :
    ∃ es, t.log = s.log ++ es := by
  cases h <;> first
    | exact ⟨_, rfl⟩
    | exact ⟨_, List.append_assoc _ _ _⟩

theorem new_dial {s t : PState} (h : Step s t) {a : UDPAddr}
    (hnew : Event.dialAttempt a ∈ t.log)
    (hold : Event.dialAttempt a ∉ s.log) :
    s.goro = .dialing ∧ s.bcastAddr = some a := by
  cases h with
  | readDatagram data sender err hrun hpc =>
    cases err <;> simp_all [readStep, List.mem_append]
  | _ =>
    simp_all [resolveBcastFailStep, resolveBcastOkStep, resolveListenFailStep,
      resolveListenOkStep, bindFailStep, bindOkStep, dialFailStep, dialOkStep,
      sleepStep, writeOkStep, writeFailStep, List.mem_append]

theorem new_bind {s t : PState} (h : Step s t) {a : UDPAddr}
    (hnew : Event.bindAttempt a ∈ t.log)
    (hold : Event.bindAttempt a ∉ s.log) :
    s.main = .bindListen ∧ s.listenAddr = some a := by
  cases h with
  | readDatagram data sender err hrun hpc =>
    cases err <;> simp_all [readStep, List.mem_append]
  | _ =>
    simp_all [resolveBcastFailStep, resolveBcastOkStep, resolveListenFailStep,
      resolveListenOkStep, bindFailStep, bindOkStep, dialFailStep, dialOkStep,
      sleepStep, writeOkStep, writeFailStep, List.mem_append]

theorem new_write {s t : PState} (h : Step s t) {p : List Nat}
    (hnew : Event.writeAttempt p ∈ t.log)
    (hold : Event.writeAttempt p ∉ s.log) :
    p = strBytes s.name ∧ s.goro = .writing ∧ t.goro = .sleeping ∧
      t.exited = none ∧ t.main = s.main := by
  cases h with
  | readDatagram data sender err hrun hpc =>
    cases err <;> simp_all [readStep, List.mem_append]
  | _ =>
    simp_all [resolveBcastFailStep, resolveBcastOkStep, resolveListenFailStep,
      resolveListenOkStep, bindFailStep, bindOkStep, dialFailStep, dialOkStep,
      sleepStep, writeOkStep, writeFailStep, List.mem_append]

theorem new_writeErrLog {s t : PState} (h : Step s t) {m : String}
    (hnew : Event.logWriteError m ∈ t.log)
    (hold : Event.logWriteError m ∉ s.log) :
    s.goro = .writing ∧ t.goro = .sleeping ∧ t.exited = none ∧
      t.main = s.main := by
  cases h with
  | readDatagram data sender err hrun hpc =>
    cases err <;> simp_all [readStep, List.mem_append]
  | _ =>
    simp_all [resolveBcastFailStep, resolveBcastOkStep, resolveListenFailStep,
      resolveListenOkStep, bindFailStep, bindOkStep, dialFailStep, dialOkStep,
      sleepStep, writeOkStep, writeFailStep, List.mem_append]

theorem new_readErrLog {s t : PState} (h : Step s t) {m : String}
    (hnew : Event.logReadError m ∈ t.log)
    (hold : Event.logReadError m ∉ s.log) :
    s.main = .readLoop ∧ t.main = .readLoop ∧ t.exited = none ∧
      t.goro = s.goro := by
  cases h with
  | readDatagram data sender err hrun hpc =>
    cases err <;> simp_all [readStep, List.mem_append]
  | _ =>
    simp_all [resolveBcastFailStep, resolveBcastOkStep, resolveListenFailStep,
      resolveListenOkStep, bindFailStep, bindOkStep, dialFailStep, dialOkStep,
      sleepStep, writeOkStep, writeFailStep, List.mem_append]

theorem new_fatalRB {s t : PState} (h : Step s t) {m : String}
    (hnew : Event.fatalResolveBcast m ∈ t.log)
    (hold : Event.fatalResolveBcast m ∉ s.log) :
    t.exited = some 1 ∧ s.main = .resolveBcast ∧ t.main = .resolveBcast := by
  cases h with
  | readDatagram data sender err hrun hpc =>
    cases err <;> simp_all [readStep, List.mem_append]
  | _ =>
    simp_all [resolveBcastFailStep, resolveBcastOkStep, resolveListenFailStep,
      resolveListenOkStep, bindFailStep, bindOkStep, dialFailStep, dialOkStep,
      sleepStep, writeOkStep, writeFailStep, List.mem_append]

theorem new_fatalRL {s t : PState} (h : Step s t) {m : String}
    (hnew : Event.fatalResolveListen m ∈ t.log)
    (hold : Event.fatalResolveListen m ∉ s.log) :
    t.exited = some 1 ∧ s.main = .resolveListen ∧ t.main = .resolveListen := by
  cases h with
  | readDatagram data sender err hrun hpc =>
    cases err <;> simp_all [readStep, List.mem_append]
  | _ =>
    simp_all [resolveBcastFailStep, resolveBcastOkStep, resolveListenFailStep,
      resolveListenOkStep, bindFailStep, bindOkStep, dialFailStep, dialOkStep,
      sleepStep, writeOkStep, writeFailStep, List.mem_append]

theorem new_fatalDial {s t : PState} (h : Step s t) {m : String}
    (hnew : Event.fatalDial m ∈ t.log)
    (hold : Event.fatalDial m ∉ s.log) :
    t.exited = some 1 := by
  cases h with
  | readDatagram data sender err hrun hpc =>
    cases err <;> simp_all [readStep, List.mem_append]
  | _ =>
    simp_all [resolveBcastFailStep, resolveBcastOkStep, resolveListenFailStep,
      resolveListenOkStep, bindFailStep, bindOkStep, dialFailStep, dialOkStep,
      sleepStep, writeOkStep, writeFailStep, List.mem_append]

theorem new_fatalBind {s t : PState} (h : Step s t) {m : String}
    (hnew : Event.fatalBind m ∈ t.log)
    (hold : Event.fatalBind m ∉ s.log) :
    t.exited = some 1 := by
  cases h with
  | readDatagram data sender err hrun hpc =>
    cases err <;> simp_all [readStep, List.mem_append]
  | _ =>
    simp_all [resolveBcastFailStep, resolveBcastOkStep, resolveListenFailStep,
      resolveListenOkStep, bindFailStep, bindOkStep, dialFailStep, dialOkStep,
      sleepStep, writeOkStep, writeFailStep, List.mem_append]

/-- Before the broadcast address has been resolved, the goroutine has not
been launched and no socket operation has been attempted. -/
theorem reach_preinit {r : Nat} {t : PState} (h : Steps (initState r) t) :
    t.main = .resolveBcast →
      t.goro = .notStarted ∧ t.log.all (fun e => !e.isSocketOp) = true := by
  induction h with
  | refl => exact fun _ => ⟨rfl, rfl⟩
  | tail h' hst ih =>
    cases hst with
    | readDatagram data sender err hrun hpc =>
      intro hm
      cases err <;> simp_all [readStep]
    | _ =>
      intro hm
      simp_all [resolveBcastFailStep, resolveBcastOkStep, resolveListenFailStep,
        resolveListenOkStep, bindFailStep, bindOkStep, dialFailStep, dialOkStep,
        sleepStep, writeOkStep, writeFailStep, List.all_append,
        Event.isSocketOp]

/-- Once the goroutine runs, the broadcast address it dials is the resolved
`255.255.255.255:2002`; once the main thread binds, the listen address is
the resolved wildcard `:2002`. -/
theorem reach_addrs {r : Nat} {t : PState} (h : Steps (initState r) t) :
    (t.goro ≠ .notStarted → t.bcastAddr = some bcastA) ∧
    ((t.main = .bindListen ∨ t.main = .readLoop) →
      t.listenAddr = some listenA) := by
  induction h with
  | refl => simp [initState]
  | tail h' hst ih =>
    cases hst with
    | readDatagram data sender err hrun hpc =>
      cases err <;> simp_all [readStep]
    | _ =>
      simp_all [resolveBcastFailStep, resolveBcastOkStep, resolveListenFailStep,
        resolveListenOkStep, bindFailStep, bindOkStep, dialFailStep, dialOkStep,
        sleepStep, writeOkStep, writeFailStep, resolve_bcast_eq,
        resolve_listen_eq]

theorem step_targets {r : Nat} {s t : PState} (hst : Step s t)
    (hname : s.name = mkName r)
    (hbc : s.goro ≠ .notStarted → s.bcastAddr = some bcastA)
    (hls : (s.main = .bindListen ∨ s.main = .readLoop) →
      s.listenAddr = some listenA)
    (ihd : ∀ a, Event.dialAttempt a ∈ s.log → a = bcastA)
    (ihb : ∀ a, Event.bindAttempt a ∈ s.log → a = listenA)
    (ihw : ∀ p, Event.writeAttempt p ∈ s.log → p = strBytes (mkName r)) :
    (∀ a, Event.dialAttempt a ∈ t.log → a = bcastA) ∧
    (∀ a, Event.bindAttempt a ∈ t.log → a = listenA) ∧
    (∀ p, Event.writeAttempt p ∈ t.log → p = strBytes (mkName r)) := by
  refine ⟨?_, ?_, ?_⟩ <;> intro x hx
  · by_cases hold : Event.dialAttempt x ∈ s.log
    · exact ihd x hold
    · obtain ⟨hgo, hbca⟩ := new_dial hst hx hold
      have hsome := hbc (by rw [hgo]; exact fun hh => GoPC.noConfusion hh)
      rw [hsome] at hbca
      exact (Option.some.inj hbca).symm
  · by_cases hold : Event.bindAttempt x ∈ s.log
    · exact ihb x hold
    · obtain ⟨hm, hla⟩ := new_bind hst hx hold
      have hsome := hls (Or.inl hm)
      rw [hsome] at hla
      exact (Option.some.inj hla).symm
  · by_cases hold : Event.writeAttempt x ∈ s.log
    · exact ihw x hold
    · obtain ⟨hp, _⟩ := new_write hst hx hold
      rw [hp, hname]

/-- Every dial in the log targets the broadcast address, every bind the
wildcard listen address, and every write carries the identity's bytes. -/
theorem reach_targets {r : Nat} {t : PState} (h : Steps (initState r) t) :
    (∀ a, Event.dialAttempt a ∈ t.log → a = bcastA) ∧
    (∀ a, Event.bindAttempt a ∈ t.log → a = listenA) ∧
    (∀ p, Event.writeAttempt p ∈ t.log → p = strBytes (mkName r)) := by
  induction h with
  | refl =>
    refine ⟨?_, ?_, ?_⟩ <;> intro x hx <;> simp [initState] at hx
  | tail h' hst ih =>
    exact step_targets hst (steps_name h') (reach_addrs h').1
      (reach_addrs h').2 ih.1 ih.2.1 ih.2.2

/-- In every reachable state, the number of sleeps so far equals the number
of write attempts, plus one exactly when the goroutine sits between its
sleep and its write: each loop iteration sleeps first, then writes once. -/
theorem reach_counts {r : Nat} {t : PState} (h : Steps (initState r) t) :
    t.log.countP Event.isSleepEv
      = t.log.countP Event.isWriteEv
        + (if t.goro = .writing then 1 else 0) := by
  induction h with
  | refl => rfl
  | tail h' hst ih =>
    cases hst with
    | readDatagram data sender err hrun hpc =>
      cases err <;>
        simp_all [readStep, List.countP_append, List.countP_cons,
          Event.isSleepEv, Event.isWriteEv]
    | resolveBcastOk a hrun hpc hres =>
      have hg := (reach_preinit h' hpc).1
      simp_all [resolveBcastOkStep, List.countP_append, List.countP_cons,
        Event.isSleepEv, Event.isWriteEv]
    | _ =>
      simp_all [resolveBcastFailStep, resolveListenFailStep,
        resolveListenOkStep, bindFailStep, bindOkStep, dialFailStep,
        dialOkStep, sleepStep, writeOkStep, writeFailStep,
        List.countP_append, List.countP_cons, Event.isSleepEv,
        Event.isWriteEv]

/-- In every reachable state, exactly as many `Received` lines have been
logged as reads have been attempted: no datagram is filtered out. -/
theorem reach_recv {r : Nat} {t : PState} (h : Steps (initState r) t) :
    t.log.countP Event.isRecvEv = t.log.countP Event.isReadEv := by
  induction h with
  | refl => rfl
  | tail h' hst ih =>
    cases hst with
    | readDatagram data sender err hrun hpc =>
      cases err <;>
        simp_all [readStep, List.countP_append, List.countP_cons,
          Event.isRecvEv, Event.isReadEv]
    | _ =>
      simp_all [resolveBcastFailStep, resolveBcastOkStep,
        resolveListenFailStep, resolveListenOkStep, bindFailStep, bindOkStep,
        dialFailStep, dialOkStep, sleepStep, writeOkStep, writeFailStep,
        List.countP_append, List.countP_cons, Event.isRecvEv, Event.isReadEv]

/-- Whenever the main thread is in its read loop, the receive buffer has
exactly the 1024 bytes allocated by `make([]byte, 1024)`. -/
theorem reach_buflen {r : Nat} {t : PState} (h : Steps (initState r) t) :
    t.main = .readLoop → t.buf.length = 1024 := by
  induction h with
  | refl => intro hm; simp [initState] at hm
  | tail h' hst ih =>
    cases hst with
    | bindOk a hrun hpc haddr => intro _; simp [bindOkStep]
    | readDatagram data sender err hrun hpc =>
      intro _
      have hlen := ih hpc
      cases err <;> simp [readStep, hlen]
    | _ =>
      intro hm
      simp_all [resolveBcastFailStep, resolveBcastOkStep,
        resolveListenFailStep, resolveListenOkStep, bindFailStep,
        dialFailStep, dialOkStep, sleepStep, writeOkStep, writeFailStep]

/-- Until the listen address has been resolved, neither a bind nor a read
has been attempted. -/
theorem reach_nobind {r : Nat} {t : PState} (h : Steps (initState r) t) :
    (t.main = .resolveBcast ∨ t.main = .resolveListen) →
      (∀ a, Event.bindAttempt a ∉ t.log) ∧ Event.readAttempt ∉ t.log := by
  induction h with
  | refl =>
    intro _
    constructor
    · intro a; simp [initState]
    · simp [initState]
  | tail h' hst ih =>
    cases hst with
    | readDatagram data sender err hrun hpc =>
      intro hm
      cases err <;> simp_all [readStep]
    | _ =>
      intro hm
      simp_all [resolveBcastFailStep, resolveBcastOkStep,
        resolveListenFailStep, resolveListenOkStep, bindFailStep, bindOkStep,
        dialFailStep, dialOkStep, sleepStep, writeOkStep, writeFailStep,
        List.mem_append]

/-- A fatal log line in the log pins down where the process died: the
corresponding `log.Fatalf` ran and the whole process exited with status 1,
with the main thread still at the call site's program point. -/
theorem step_fatals {s t : PState} (hst : Step s t)
    (ih1 : ∀ m, Event.fatalResolveBcast m ∈ s.log →
      s.exited = some 1 ∧ s.main = .resolveBcast)
    (ih2 : ∀ m, Event.fatalResolveListen m ∈ s.log →
      s.exited = some 1 ∧ s.main = .resolveListen)
    (ih3 : ∀ m, Event.fatalDial m ∈ s.log → s.exited = some 1)
    (ih4 : ∀ m, Event.fatalBind m ∈ s.log → s.exited = some 1) :
    (∀ m, Event.fatalResolveBcast m ∈ t.log →
      t.exited = some 1 ∧ t.main = .resolveBcast) ∧
    (∀ m, Event.fatalResolveListen m ∈ t.log →
      t.exited = some 1 ∧ t.main = .resolveListen) ∧
    (∀ m, Event.fatalDial m ∈ t.log → t.exited = some 1) ∧
    (∀ m, Event.fatalBind m ∈ t.log → t.exited = some 1) := by
  have hrun := step_exited_src hst
  refine ⟨?_, ?_, ?_, ?_⟩ <;> intro m hm
  · by_cases hold : Event.fatalResolveBcast m ∈ s.log
    · have hx := (ih1 m hold).1
      rw [hx] at hrun
      exact Option.noConfusion hrun
    · obtain ⟨hx, _, hmn⟩ := new_fatalRB hst hm hold
      exact ⟨hx, hmn⟩
  · by_cases hold : Event.fatalResolveListen m ∈ s.log
    · have hx := (ih2 m hold).1
      rw [hx] at hrun
      exact Option.noConfusion hrun
    · obtain ⟨hx, _, hmn⟩ := new_fatalRL hst hm hold
      exact ⟨hx, hmn⟩
  · by_cases hold : Event.fatalDial m ∈ s.log
    · have hx := ih3 m hold
      rw [hx] at hrun
      exact Option.noConfusion hrun
    · exact new_fatalDial hst hm hold
  · by_cases hold : Event.fatalBind m ∈ s.log
    · have hx := ih4 m hold
      rw [hx] at hrun
      exact Option.noConfusion hrun
    · exact new_fatalBind hst hm hold

/-- Reachable-state version of `step_fatals`. -/
theorem reach_fatals {r : Nat} {t : PState} (h : Steps (initState r) t) :
    (∀ m, Event.fatalResolveBcast m ∈ t.log →
      t.exited = some 1 ∧ t.main = .resolveBcast) ∧
    (∀ m, Event.fatalResolveListen m ∈ t.log →
      t.exited = some 1 ∧ t.main = .resolveListen) ∧
    (∀ m, Event.fatalDial m ∈ t.log → t.exited = some 1) ∧
    (∀ m, Event.fatalBind m ∈ t.log → t.exited = some 1) := by
  induction h with
  | refl =>
    refine ⟨?_, ?_, ?_, ?_⟩ <;> intro m hm <;> simp [initState] at hm
  | tail h' hst ih =>
    exact step_fatals hst ih.1 ih.2.1 ih.2.2.1 ih.2.2.2

theorem steps_log_mono {s t : PState} (h : Steps s t) :
    ∀ e ∈ s.log, e ∈ t.log := by
  induction h with
  | refl => exact fun e he => he
  | tail h' hst ih =>
    intro e he
    obtain ⟨es, hes⟩ := step_log_grow hst
    rw [hes]
    exact List.mem_append_left _ (ih e he)

theorem w2_reach : Steps (initState 0) w2 :=
  Steps.tail
    (Steps.tail (Steps.refl _)
      (Step.resolveBcastOk w0 bcastA rfl rfl resolve_bcast_eq))
    (Step.dialOk w1 bcastA rfl rfl rfl)

theorem w4_reach : Steps (initState 0) w4 :=
  Steps.tail
    (Steps.tail w2_reach
      (Step.resolveListenOk w2 listenA rfl rfl resolve_listen_eq))
    (Step.bindOk w3 listenA rfl rfl rfl)

theorem w4_to_w6 : Steps w4 w6 :=
  Steps.tail (Steps.tail (Steps.refl w4) (Step.sleepTick w4 rfl rfl))
    (Step.writeOk w5 rfl rfl)

theorem w6_reach : Steps (initState 0) w6 :=
  Steps.tail (Steps.tail w4_reach (Step.sleepTick w4 rfl rfl))
    (Step.writeOk w5 rfl rfl)

theorem cx_reach : Steps (initState 0) cx :=
  Steps.tail w2_reach (Step.resolveListenFail w2 "lookup failed" rfl rfl)

/-- C1, counterexample: the claim says a resolution failure of either
address terminates the process with no socket operation attempted; but the
goroutine is launched before the listen address is resolved, so there is an
execution in which the listen resolution fails fatally while the
goroutine's dial has already been attempted. -/
theorem C1_counterexample :
    Steps (initState 0) cx ∧
    Event.fatalResolveListen "lookup failed" ∈ cx.log ∧
    cx.exited = some 1 ∧
    Event.dialAttempt bcastA ∈ cx.log ∧
    Event.isSocketOp (Event.dialAttempt bcastA) = true :=
  ⟨cx_reach, by decide, rfl, by decide, rfl⟩

/-- C1 (amended): if resolution of the broadcast address fails, the process
terminates (status 1) with no socket operation attempted at all; if
resolution of the listen address fails, the process terminates (status 1)
and no bind or read has been attempted, though the already-launched
broadcaster goroutine may have attempted its dial and writes. -/
theorem C1_amended_resolution_failures {r : Nat} {t : PState}
    (h : Steps (initState r) t) :
    (∀ m, Event.fatalResolveBcast m ∈ t.log →
      t.exited = some 1 ∧ t.log.all (fun e => !e.isSocketOp) = true) ∧
    (∀ m, Event.fatalResolveListen m ∈ t.log →
      t.exited = some 1 ∧ (∀ a, Event.bindAttempt a ∉ t.log) ∧
        Event.readAttempt ∉ t.log) := by
  constructor
  · intro m hm
    obtain ⟨hx, hmn⟩ := (reach_fatals h).1 m hm
    exact ⟨hx, (reach_preinit h hmn).2⟩
  · intro m hm
    obtain ⟨hx, hmn⟩ := (reach_fatals h).2.1 m hm
    exact ⟨hx, (reach_nobind h (Or.inr hmn)).1, (reach_nobind h (Or.inr hmn)).2⟩

theorem C1_witness :
    (resolveBcastFailStep (initState 0) "bad address").exited = some 1 ∧
    (resolveBcastFailStep (initState 0) "bad address").log.all
      (fun e => !e.isSocketOp) = true :=
  (C1_amended_resolution_failures
      (Steps.tail (Steps.refl _)
        (Step.resolveBcastFail (initState 0) "bad address" rfl rfl))).1
    "bad address" (by decide)

/-- C2: an error of a steady-state write or read is only ever logged, after
which the loop continues — the goroutine returns to its sleep, the listener
stays in its read loop, and the process does not exit; moreover from any
running state ready to write (resp. read) the erroring transition exists
and behaves exactly so. -/
theorem C2_transient_errors {s t : PState} (hst : Step s t) (m : String) :
    (Event.logWriteError m ∈ t.log ∧ Event.logWriteError m ∉ s.log →
      t.exited = none ∧ t.goro = .sleeping ∧ t.main = s.main) ∧
    (Event.logReadError m ∈ t.log ∧ Event.logReadError m ∉ s.log →
      t.exited = none ∧ t.main = .readLoop ∧ t.goro = s.goro) ∧
    (s.exited = none → s.goro = .writing → Step s (writeFailStep s m)) ∧
    (s.exited = none → s.main = .readLoop → ∀ data sender,
      Step s (readStep s data sender (some m))) := by
  refine ⟨?_, ?_, ?_, ?_⟩
  · rintro ⟨hnew, hold⟩
    obtain ⟨_, hg, hx, hmn⟩ := new_writeErrLog hst hnew hold
    exact ⟨hx, hg, hmn⟩
  · rintro ⟨hnew, hold⟩
    obtain ⟨_, hm2, hx, hg⟩ := new_readErrLog hst hnew hold
    exact ⟨hx, hm2, hg⟩
  · intro hrun hgo
    exact Step.writeFail s m hrun hgo
  · intro hrun hpc data sender
    exact Step.readDatagram s data sender (some m) hrun hpc

theorem C2_witness :
    (writeFailStep w5 "io error").exited = none ∧
    (writeFailStep w5 "io error").goro = .sleeping ∧
    (writeFailStep w5 "io error").main = w5.main :=
  (C2_transient_errors (Step.writeFail w5 "io error" rfl rfl) "io error").1
    ⟨by decide, by decide⟩

/-- C3: in every reachable state the identity equals the one generated at
process start, it matches `peer-<non-negative integer>`, and exactly one
"I am" line has been logged — the identity is generated exactly once. -/
theorem C3_identity {r : Nat} {t : PState} (h : Steps (initState r) t) :
    t.name = mkName r ∧ isPeerName t.name = true ∧
    t.log.countP Event.isIAm = 1 ∧ Event.logIAm (mkName r) ∈ t.log := by
  have hn : t.name = mkName r := steps_name h
  refine ⟨hn, ?_, ?_, ?_⟩
  · rw [hn]
    exact isPeerName_mkName r
  · rw [steps_iam h]
    simp [initState, Event.isIAm]
  · exact steps_log_mono h _ (by simp [initState])

theorem C3_witness :
    w6.name = mkName 0 ∧ isPeerName w6.name = true ∧
    w6.log.countP Event.isIAm = 1 ∧ Event.logIAm (mkName 0) ∈ w6.log :=
  C3_identity w6_reach

/-- C4: every write the broadcaster ever performs carries exactly the UTF-8
bytes of the identity generated at startup (the same bytes on every
iteration), and the sleep/write counts show each iteration sleeps before
its write — including before the first write, since the sleep count always
equals the write count plus one exactly while a write is pending. -/
theorem C4_broadcast_loop {r : Nat} {t : PState} (h : Steps (initState r) t) :
    (∀ p, Event.writeAttempt p ∈ t.log → p = strBytes (mkName r)) ∧
    t.log.countP Event.isSleepEv
      = t.log.countP Event.isWriteEv
        + (if t.goro = .writing then 1 else 0) :=
  ⟨(reach_targets h).2.2, reach_counts h⟩

theorem C4_witness :
    w6.log.countP Event.isSleepEv
      = w6.log.countP Event.isWriteEv
        + (if w6.goro = GoPC.writing then 1 else 0) ∧
    Event.writeAttempt (strBytes (mkName 0)) ∈ w6.log :=
  ⟨(C4_broadcast_loop w6_reach).2, by decide⟩

/-- C5: in the read loop every arriving datagram — from any sender,
including this process's own broadcaster — can be read, and the read
unconditionally logs the received payload together with the sender's
address; globally, exactly as many `Received` lines are logged as reads are
attempted, so no datagram is filtered. -/
theorem C5_logs_every_datagram {r : Nat} {t : PState}
    (h : Steps (initState r) t)
    (hrun : t.exited = none) (hpc : t.main = .readLoop) :
    (∀ data sender err, Step t (readStep t data sender err)) ∧
    (∀ (data : List Nat) (sender : UDPAddr) (err : Option String),
      Event.logReceived
        ((data.take (min data.length 1024)
          ++ t.buf.drop (min data.length 1024)).take (min data.length 1024))
        sender ∈ (readStep t data sender err).log) ∧
    t.log.countP Event.isRecvEv = t.log.countP Event.isReadEv := by
  refine ⟨?_, ?_, reach_recv h⟩
  · intro data sender err
    exact Step.readDatagram t data sender err hrun hpc
  · intro data sender err
    cases err <;> simp [readStep]

theorem C5_witness :
    Step w4 (readStep w4 [104, 105] ⟨"10.0.0.5", 40000⟩ none) ∧
    w4.log.countP Event.isRecvEv = w4.log.countP Event.isReadEv :=
  ⟨(C5_logs_every_datagram w4_reach rfl rfl).1 [104, 105]
      ⟨"10.0.0.5", 40000⟩ none,
   (C5_logs_every_datagram w4_reach rfl rfl).2.2⟩

/-- C6: a read of a datagram `data` returns `n = min data.length 1024`, so
`n ≤ 1024`, the slice `buf[0:n]` is in bounds (the buffer keeps its 1024
bytes), and the logged payload is exactly the first `n` bytes of the
datagram — an oversized datagram is truncated without a read error, and no
stale bytes from an earlier larger datagram ever appear in the line. -/
theorem C6_truncation {r : Nat} {t : PState} (h : Steps (initState r) t)
    (hrun : t.exited = none) (hpc : t.main = .readLoop)
    (data : List Nat) (sender : UDPAddr) :
    min data.length 1024 ≤ 1024 ∧
    (readStep t data sender none).buf.length = 1024 ∧
    min data.length 1024 ≤ (readStep t data sender none).buf.length ∧
    (readStep t data sender none).buf.take (min data.length 1024)
      = data.take (min data.length 1024) ∧
    Event.logReceived (data.take (min data.length 1024)) sender
      ∈ (readStep t data sender none).log ∧
    Step t (readStep t data sender none) := by
  have hblen : (readStep t data sender none).buf.length = 1024 :=
    reach_buflen (Steps.tail h (Step.readDatagram t data sender none hrun hpc))
      hpc
  refine ⟨Nat.min_le_right _ _, hblen, ?_, ?_, ?_,
    Step.readDatagram t data sender none hrun hpc⟩
  · rw [hblen]
    exact Nat.min_le_right _ _
  · simp [readStep]
  · simp [readStep]

theorem C6_witness :
    min (List.replicate 1500 7 : List Nat).length 1024 ≤ 1024 ∧
    (readStep w4 (List.replicate 1500 7) ⟨"10.0.0.5", 40000⟩ none).buf.length
      = 1024 :=
  ⟨(C6_truncation w4_reach rfl rfl (List.replicate 1500 7)
      ⟨"10.0.0.5", 40000⟩).1,
   (C6_truncation w4_reach rfl rfl (List.replicate 1500 7)
      ⟨"10.0.0.5", 40000⟩).2.1⟩

/-- C7: a failing dial in the goroutine and a failing bind on the main
thread each terminate the whole process with exit status 1 — afterwards no
thread (neither the goroutine nor the main thread) can take any further
step. -/
theorem C7_startup_fatal (s : PState) (a : UDPAddr) (msg : String) :
    (s.exited = none → s.goro = .dialing → s.bcastAddr = some a →
      Step s (dialFailStep s a msg) ∧
      (dialFailStep s a msg).exited = some 1 ∧
      ∀ u, ¬ Step (dialFailStep s a msg) u) ∧
    (s.exited = none → s.main = .bindListen → s.listenAddr = some a →
      Step s (bindFailStep s a msg) ∧
      (bindFailStep s a msg).exited = some 1 ∧
      ∀ u, ¬ Step (bindFailStep s a msg) u) := by
  constructor
  · intro hrun hgo haddr
    exact ⟨Step.dialFail s a msg hrun hgo haddr, rfl, no_step_of_exited rfl⟩
  · intro hrun hpc haddr
    exact ⟨Step.bindFail s a msg hrun hpc haddr, rfl, no_step_of_exited rfl⟩

theorem C7_witness :
    Step w1 (dialFailStep w1 bcastA "connect error") ∧
    (dialFailStep w1 bcastA "connect error").exited = some 1 :=
  ⟨((C7_startup_fatal w1 bcastA "connect error").1 rfl rfl rfl).1,
   ((C7_startup_fatal w1 bcastA "connect error").1 rfl rfl rfl).2.1⟩

/-- C8: the broadcaster's target resolves to the IPv4 limited broadcast
address `255.255.255.255` and the listener binds the wildcard (empty host)
address, both on port `commonPort = 2002`; every dial and bind ever logged
uses exactly these addresses, for the whole life of the process. -/
theorem C8_addresses {r : Nat} {t : PState} (h : Steps (initState r) t) :
    resolveUDPAddr bcastAddrString = some bcastA ∧
    resolveUDPAddr listenAddrString = some listenA ∧
    bcastA.host = "255.255.255.255" ∧ listenA.host = "" ∧
    bcastA.port = commonPort ∧ listenA.port = commonPort ∧
    commonPort = 2002 ∧
    (∀ a, Event.dialAttempt a ∈ t.log → a = bcastA) ∧
    (∀ a, Event.bindAttempt a ∈ t.log → a = listenA) :=
  ⟨resolve_bcast_eq, resolve_listen_eq, rfl, rfl, rfl, rfl, rfl,
   (reach_targets h).1, (reach_targets h).2.1⟩

theorem C8_witness :
    Event.dialAttempt bcastA ∈ w4.log ∧
    Event.bindAttempt listenA ∈ w4.log ∧
    commonPort = 2002 :=
  ⟨by decide, by decide, (C8_addresses w4_reach).2.2.2.2.2.2.1⟩

/-- C9: once startup has fully succeeded the process never exits on its
own — every execution from a steady state stays steady with no exit code —
and the deferred `conn.Close()` is never reached in any reachable state. -/
theorem C9_no_exit :
    (∀ s t, SteadyState s → Steps s t → SteadyState t ∧ t.exited = none) ∧
    (∀ (r : Nat) (t : PState), Steps (initState r) t →
      Event.closeListener ∉ t.log) := by
  constructor
  · intro s t hs h
    have hst := steady_steps hs h
    exact ⟨hst, hst.2.2⟩
  · intro r t h
    exact steps_noclose h

theorem C9_witness :
    SteadyState w6 ∧ w6.exited = none ∧ Event.closeListener ∉ w6.log :=
  ⟨(C9_no_exit.1 w4 w6 ⟨rfl, Or.inl rfl, rfl⟩ w4_to_w6).1,
   (C9_no_exit.1 w4 w6 ⟨rfl, Or.inl rfl, rfl⟩ w4_to_w6).2,
   C9_no_exit.2 0 w6 w6_reach⟩

/-- C10: when a read returns an error, the listener still first logs the
`Received` line built from the byte count and sender address that the
failed read returned, and only afterwards logs the error — the log grows by
exactly `[read, received, error]` in that order. -/
theorem C10_received_before_error (s : PState) (data : List Nat)
    (sender : UDPAddr) (m : String)
    (hrun : s.exited = none) (hpc : s.main = .readLoop) :
    Step s (readStep s data sender (some m)) ∧
    (readStep s data sender (some m)).log
      = s.log ++ [Event.readAttempt,
          Event.logReceived
            ((data.take (min data.length 1024)
              ++ s.buf.drop (min data.length 1024)).take
                (min data.length 1024))
            sender,
          Event.logReadError m] := by
  refine ⟨Step.readDatagram s data sender (some m) hrun hpc, ?_⟩
  simp [readStep]

theorem C10_witness :
    Step w4 (readStep w4 [104, 105] ⟨"10.0.0.5", 40000⟩ (some "closed")) ∧
    (readStep w4 [104, 105] ⟨"10.0.0.5", 40000⟩ (some "closed")).log
      = w4.log ++ [Event.readAttempt,
          Event.logReceived
            ((([104, 105] : List Nat).take
                (min ([104, 105] : List Nat).length 1024)
              ++ w4.buf.drop (min ([104, 105] : List Nat).length 1024)).take
                (min ([104, 105] : List Nat).length 1024))
            ⟨"10.0.0.5", 40000⟩,
          Event.logReadError "closed"] :=
  C10_received_before_error w4 [104, 105] ⟨"10.0.0.5", 40000⟩ "closed" rfl rfl

end Peer
